import Mathlib

/-!
# Verification of the x-ray-crawler scheduling engine (src/lib/index.js)

Shallow embedding of the crawl orchestrator of `x-ray-crawler`:
the `Crawler` configuration surface, the `crawl` run loop with its
`scheduled` in-flight counter and `limit` bookkeeping, the `schedule`
delay/submission path, `onjobfinish`/`onresponse`, the `get` fetch
adapter with its `done` continuation, `canRequest` URL filtering and
`json_select`.

JavaScript numbers that can be `Infinity` (the default `limit`) are
modelled by `JNum`; JavaScript values that flow through the discovery
pipeline (candidate URLs, response bodies, driver results) are modelled
by `JsVal`, with object identity represented by a numeric tag.

The bounded job queue (`enqueue`, a collaborator of this file) is
modelled from the spec, §4.3: a cumulative acceptance cap; a submission
is accepted iff the cumulative accepted count is still below the cap,
and the boolean is returned synchronously.  Concurrency and FIFO order
inside the queue affect only timing, never the counters the claims
below are about, so the queue is represented by its accepted count.
-/

set_option autoImplicit false

namespace XrayCrawler

/-- A JavaScript number that is either a finite integer or `Infinity`
(the default `limit` in the crawler state is `Infinity`). -/
inductive JNum where
  | inf
  | fin (n : Int)
deriving Repr, DecidableEq

/-- JavaScript `x - 1` on a `JNum`: `Infinity - 1 = Infinity`. -/
def JNum.dec : JNum → JNum
  | .inf => .inf
  | .fin n => .fin (n - 1)

/-- JavaScript `x <= 0` on a `JNum` (`Infinity <= 0` is false). -/
def JNum.leZero : JNum → Bool
  | .inf => false
  | .fin n => decide (n ≤ 0)

/-- `(k : Nat) < cap` where the cap may be `Infinity`. -/
def JNum.natLt (k : Nat) : JNum → Bool
  | .inf => true
  | .fin n => decide ((k : Int) < n)

/-- `(k : Nat) <= cap` where the cap may be `Infinity`. -/
def JNum.natLe (k : Nat) : JNum → Bool
  | .inf => true
  | .fin n => decide ((k : Int) ≤ n)

/-- A JavaScript value as it flows through the crawler: candidates
returned by the discovery function, response bodies, driver results.
Object and function identity is represented by a numeric tag, so `==`
between two objects is reference equality, as in JavaScript. -/
inductive JsVal where
  | undefv
  | nullv
  | boolv (b : Bool)
  | numv (n : Int)
  | strv (s : String)
  | arr (xs : List JsVal)
  | fnv (tag : Nat)
  | obj (tag : Nat)
deriving Repr

mutual

/-- Equality test on `JsVal` (JavaScript `==`/`===` between values of
the same type; for objects and functions this is reference equality). -/
def JsVal.beq : JsVal → JsVal → Bool
  | .undefv, .undefv => true
  | .nullv, .nullv => true
  | .boolv a, .boolv b => a == b
  | .numv a, .numv b => a == b
  | .strv a, .strv b => a == b
  | .arr xs, .arr ys => JsVal.beqList xs ys
  | .fnv a, .fnv b => a == b
  | .obj a, .obj b => a == b
  | _, _ => false

/-- Elementwise equality test on lists of `JsVal`. -/
def JsVal.beqList : List JsVal → List JsVal → Bool
  | [], [] => true
  | x :: xs, y :: ys => JsVal.beq x y && JsVal.beqList xs ys
  | _, _ => false

end

instance : BEq JsVal := ⟨JsVal.beq⟩

/-- JavaScript truthiness: `undefined`, `null`, `false`, `0` and `""`
are falsy, everything else (objects, functions, arrays, non-empty
strings, non-zero numbers) is truthy. -/
def truthy : JsVal → Bool
  | .undefv => false
  | .nullv => false
  | .boolv b => b
  | .numv n => !(n == 0)
  | .strv s => !(s == "")
  | .arr _ => true
  | .fnv _ => true
  | .obj _ => true

/-- Characters allowed in a URL scheme after the leading letter. -/
def isSchemeChar (c : Char) : Bool :=
  c.isAlpha || c.isDigit || c == '+' || c == '-' || c == '.'

/-- Scans the tail of a candidate scheme: succeeds when a `':'` is
reached through scheme characters only. -/
def schemeTail : List Char → Bool
  | [] => false
  | ':' :: _ => true
  | c :: rest => isSchemeChar c && schemeTail rest

/-- Modelled from the spec: the protocol test of Node's `url.parse`
(the `url` module is an external collaborator of `src/lib/index.js`).
A string has a recognizable protocol iff it starts with a letter
followed by scheme characters and a colon; `parse(url).protocol` is
non-null (truthy) exactly in that case. -/
def hasProtocol (s : String) : Bool :=
  match s.data with
  | [] => false
  | c :: rest => c.isAlpha && schemeTail rest

/-- `canRequest` (src/lib/index.js, lines 355-359): a candidate can be
requested iff it is a string and `parse(url).protocol` is truthy;
every non-string is rejected (the function returns `false`). -/
def canRequest : JsVal → Bool
  | .strv s => hasProtocol s
  | _ => false

/-- The `urls.concat(next_page)` step of `onresponse` (lines 232-241):
a falsy `next_page` contributes nothing (`if (next_page)` fails), an
array contributes its elements, any other truthy value contributes
itself as a single candidate. -/
def toUrls (next : JsVal) : List JsVal :=
  if truthy next then
    match next with
    | .arr xs => xs
    | v => [v]
  else []

/-! ## The crawl run (src/lib/index.js, `Crawler.prototype.crawl`, lines 173-282)

A run is driven by two kinds of asynchronous events, each delivered to
the single logical thread: a pending `setTimeout` from `schedule`
firing (which submits its URL to the queue), and a submitted job's
callback `onjobfinish` firing (error or success; on success
`onresponse` runs discovery and schedules the filtered candidates, and
only then is the `scheduled` counter decremented).

The state below carries the closure variables of `crawl` (`limit`,
`scheduled`), the queue's cumulative accepted count and cap, and
instrumentation counters (submissions attempted, jobs finished, error
and response signals emitted, completions of `done`).  Candidate URL
values influence the run only through the `canRequest` filter, so the
multiset of pending timers is represented by its size. -/

/-- State of one crawl run. `limit` and `scheduled` are the closure
variables of `crawl`; `qcap`/`qAccepted` are the queue's cumulative
cap and accepted count (queue modelled from the spec, §4.3); `jobs` is
the number of accepted jobs whose callback has not yet fired; `timers`
is the number of pending `setTimeout` callbacks from `schedule`.
`submits`, `finished`, `errors`, `responses` and `doneCount` count
queue submissions, finished jobs, `error` signals, `response` signals
and calls of the run's completion callback `done`. -/
structure St where
  limit : JNum
  qcap : JNum
  scheduled : Int
  qAccepted : Nat
  jobs : Nat
  timers : Nat
  submits : Nat
  finished : Nat
  errors : Nat
  responses : Nat
  doneCount : Nat
deriving Repr, DecidableEq

/-- `schedule(url)` (lines 248-261) up to the `setTimeout`: decrement
`limit` first; if the decremented value is `<= 0`, return without
scheduling; otherwise increment `scheduled` speculatively and register
the delayed submission (one more pending timer). -/
def scheduleOne (s : St) : St :=
  let l := s.limit.dec
  if l.leZero then { s with limit := l }
  else { s with limit := l, scheduled := s.scheduled + 1, timers := s.timers + 1 }

/-- The body of the `setTimeout` callback in `schedule` (lines
256-260): submit the URL to the queue; `queued` is false iff the
queue's cumulative cap is reached; on rejection the code only does
`if (!queued) return;` — no bookkeeping of `scheduled` happens. -/
def stepTimerFire (s : St) : St :=
  let queued := JNum.natLt s.qAccepted s.qcap
  let s1 := { s with timers := s.timers - 1, submits := s.submits + 1 }
  if queued then { s1 with qAccepted := s1.qAccepted + 1, jobs := s1.jobs + 1 } else s1

/-- The tail of `onjobfinish` (lines 275-277): `if (--scheduled <= 0)
return done();`. -/
def finishDec (s : St) : St :=
  let s1 := { s with scheduled := s.scheduled - 1 }
  if s1.scheduled ≤ 0 then { s1 with doneCount := s1.doneCount + 1 } else s1

/-- `urls.forEach(schedule)` (line 241): one `schedule` call per
filtered candidate (the candidate's value no longer matters once the
filter has passed it). -/
def schedList (cands : List JsVal) (s : St) : St :=
  cands.foldl (fun acc _ => scheduleOne acc) s

/-- Outcome of a job as seen by `onjobfinish`: either the driver/queue
reported an error, or the job succeeded and the discovery function
(`paginate`) returned the value `next` for its response. -/
inductive Outcome where
  | fail
  | ok (next : JsVal)

/-- One firing of `onjobfinish(url)`'s callback (lines 263-279).  On
error: emit the `error` signal, no discovery.  On success: run
`onresponse` — emit the `response` signal, filter
`urls.concat(next_page)` through `canRequest`, and `schedule` each
survivor.  In both cases, afterwards decrement `scheduled` and call
`done()` if it reached zero.  The queue slot is freed for the next
waiting job (`jobs` decreases). -/
def stepFinish (out : Outcome) (s : St) : St :=
  match out with
  | .fail =>
      finishDec { s with
        jobs := s.jobs - 1, finished := s.finished + 1, errors := s.errors + 1 }
  | .ok next =>
      let cands := (toUrls next).filter canRequest
      finishDec (schedList cands { s with
        jobs := s.jobs - 1, finished := s.finished + 1, responses := s.responses + 1 })

/-- The start of `crawl` (lines 176-204): the closure variable `limit`
and the queue's cap are both the computed limit `L`; `scheduled`
starts at 1 (`scheduled++`) and the seed URL is submitted to the queue
(line 204; the returned boolean is ignored there). -/
def initState (L : JNum) : St :=
  let seedQueued := JNum.natLt 0 L
  { limit := L, qcap := L, scheduled := 1,
    qAccepted := if seedQueued then 1 else 0,
    jobs := if seedQueued then 1 else 0,
    timers := 0, submits := 1, finished := 0,
    errors := 0, responses := 0, doneCount := 0 }

/-- One asynchronous event of the single-threaded run: a pending timer
fires, or a pending job finishes with some outcome.  The outcome is
unconstrained, so `Step` covers every driver and every discovery
function. -/
inductive Step : St → St → Prop where
  | timer (s : St) : 1 ≤ s.timers → Step s (stepTimerFire s)
  | finish (out : Outcome) (s : St) : 1 ≤ s.jobs → Step s (stepFinish out s)

/-- States reachable in a run started with limit `L`. -/
inductive Reaches (L : JNum) : St → Prop where
  | init : Reaches L (initState L)
  | step {s t : St} : Reaches L s → Step s t → Reaches L t

/-- A deterministic executor for concrete scenarios: fire pending
timers first, otherwise finish the oldest pending job; the `n`-th
finished job gets outcome `script n`.  At a state with no pending
events it is the identity. -/
def execStep (script : Nat → Outcome) (s : St) : St :=
  if 1 ≤ s.timers then stepTimerFire s
  else if 1 ≤ s.jobs then stepFinish (script s.finished) s
  else s

/-- A whole concrete run: `crawl` captures the `throws` flag (line
180: `var throws = this.throws();`) and then starts the event loop;
the flag is threaded here exactly as in the source — captured and
never consulted afterwards (no later line of `crawl`, `schedule`,
`onresponse` or `onjobfinish` reads it). -/
def runCrawl (_throwsFlag : Bool) (script : Nat → Outcome) (L : JNum) (fuel : Nat) : St :=
  Nat.iterate (execStep script) fuel (initState L)

/-! ## Run invariants -/

/-- A well-formed starting limit: unbounded, or a finite cap of at
least one.  (A cap below one would make the queue reject even the seed
submission; the external queue's behaviour on a non-positive cap is
not specified, and the spec's configurations always have `L ≥ 1` or
unbounded.) -/
def okStart (L : JNum) : Prop :=
  L = .inf ∨ ∃ n : Int, 1 ≤ n ∧ L = .fin n

/-- The capacity invariant for a finite starting limit `n`: the
closure variable `limit` is some finite `m`, and accepted submissions
plus pending timers plus the remaining scheduling allowance `m - 1`
never exceed `n`. -/
def capFin (n : Int) (s : St) : Prop :=
  ∃ m : Int, s.limit = .fin m ∧
    (s.qAccepted : Int) + (s.timers : Int) ≤ n ∧
    (1 ≤ m → (s.qAccepted : Int) + (s.timers : Int) + (m - 1) ≤ n)

/-- The capacity invariant, by starting limit: trivial for an
unbounded start, `capFin` for a finite one. -/
def capMatch : JNum → St → Prop
  | .inf, _ => True
  | .fin n, s => capFin n s

/-- The run invariant: the queue cap is the starting limit; the
in-flight counter `scheduled` equals pending jobs plus pending timers;
`done` has fired exactly once iff no work is pending; every submission
so far was accepted; and, for a finite limit, the capacity invariant. -/
structure Inv (L : JNum) (s : St) : Prop where
  qcap_eq : s.qcap = L
  sched_eq : s.scheduled = (s.jobs : Int) + (s.timers : Int)
  done_eq : s.doneCount = if s.jobs = 0 ∧ s.timers = 0 then 1 else 0
  sub_eq : s.submits = s.qAccepted
  cap : capMatch L s

/-- The scheduling allowance still left in the closure variable
`limit`: `limit - 1` further `schedule` calls can pass the
`--limit <= 0` guard. -/
def slackOf : JNum → Nat
  | .inf => 0
  | .fin m => (m - 1).toNat

/-- Termination measure of a run state: pending jobs, pending timers
and remaining scheduling allowance, weighted so that every event
strictly decreases it when the limit is finite. -/
def meas (s : St) : Nat :=
  2 * s.jobs + 3 * s.timers + 5 * slackOf s.limit

/-! ## The fetch adapter (`Crawler.prototype.get` and its `done`,
lines 294-332) -/

/-- Observable effect of the `done` continuation inside `get` (lines
317-329): the context body after `done` ran, whether the response hook
was invoked, and what the job callback `fn` received (an error, or
`(null, ctx)` — the context object itself). -/
structure DoneResult where
  body : JsVal
  respHookRan : Bool
  callback : Except String JsVal
deriving Repr

/-- `done(err, res)` (lines 317-329) for the context whose identity
tag is `ctxTag` and whose current body is `ctxBody`.  On error: the
callback gets the error and the response hook does not run.
Otherwise: `if (res && res != ctx) ctx.body = res;` — the body is
overwritten when the result is truthy and is not (by reference) the
context object itself; then the response hook runs and the callback
receives `(null, ctx)`.  (`!=` is JavaScript loose inequality; between
the context object and another object it is reference inequality, and
a primitive driver result never coerces equal to a context object, so
`JsVal` equality models it.) -/
def doneFn (ctxTag : Nat) (ctxBody : JsVal) : Except String JsVal → DoneResult
  | .error e => { body := ctxBody, respHookRan := false, callback := .error e }
  | .ok res =>
      { body := if truthy res && !(res == JsVal.obj ctxTag) then res else ctxBody,
        respHookRan := true, callback := .ok (.obj ctxTag) }

/-- The body-update rule as the claim states it: overwrite whenever
the driver's result differs by identity from the context's own body. -/
def doneBodyClaim (ctxBody res : JsVal) : JsVal :=
  if !(res == ctxBody) then res else ctxBody

/-- The success behaviour of `done`, written from the amended claim:
the response hook runs, the callback receives `(null, ctx)`, and the
body is overwritten with the driver's result exactly when that result
is truthy and differs by identity from the context object itself. -/
def doneSuccessSpec (ctxTag : Nat) (ctxBody res : JsVal) (out : DoneResult) : Prop :=
  out.respHookRan = true ∧
  out.callback = .ok (.obj ctxTag) ∧
  ((truthy res = true ∧ res ≠ .obj ctxTag) → out.body = res) ∧
  ((truthy res = false ∨ res = .obj ctxTag) → out.body = ctxBody)

/-! ## The fluent configuration surface (`Crawler`, lines 47-163) -/

/-- The stored `state.paginate` value: the constructor's default
`function(){}` (line 53), a user-supplied discovery function, or —
when the `paginate` setter was given a non-function — the local
function `compile` closing over the selector (lines 147-149).  Every
constructor denotes a JavaScript function object. -/
inductive PaginateSetting where
  | defaultNoop
  | userFn (f : JsVal → JsVal)
  | compiledSel (sel : JsVal)

/-- JavaScript truthiness of the stored `state.paginate` value: each
of the three possible stored values is a function object, and function
objects are truthy. -/
def PaginateSetting.truthyVal : PaginateSetting → Bool
  | .defaultNoop => true
  | .userFn _ => true
  | .compiledSel _ => true

/-- The value `function(){}` (the constructor's default `paginate` and
the default hooks) returns on any call: `undefined`. -/
def defaultPaginateResult : JsVal := .undefv

/-- The mutable `this.state` of a `Crawler` (lines 51-63).  The
request and response hooks are abstracted to their identity tags
(they mutate the outbound/inbound descriptors, which no claim below
inspects); the driver is the function from a URL to its result.
`concurrencyv` is `none` when unset (the constructor sets no
concurrency, so `this.concurrency()` is `undefined`). -/
structure CrawlerState where
  url : String
  limitv : JNum
  concurrencyv : Option Int
  timeoutv : Option Int
  throwsv : Bool
  paginatev : PaginateSetting
  throttlev : Option (Int × Int)
  delayv : Int × Int
  requestHookTag : Nat
  responseHookTag : Nat
  driverv : String → Except String JsVal

/-- Modelled from the spec: the default driver built by `./http` (the
repository's default transport, out of scope per §1/§6) — an abstract
fixed fetch function; no claim depends on its behaviour. -/
def defaultDriver : String → Except String JsVal := fun _ => .ok .undefv

/-- The `Crawler` constructor's default state (lines 47-64): noop
hooks, default throttle and delay, `limit: Infinity`, `timeout:
false`, `throws: false`, the default driver, and the default noop
`paginate`. -/
def mkCrawler (url : String) : CrawlerState :=
  { url := url, limitv := .inf, concurrencyv := none, timeoutv := none,
    throwsv := false, paginatev := .defaultNoop, throttlev := none,
    delayv := (0, 0), requestHookTag := 0, responseHookTag := 0,
    driverv := defaultDriver }

/-- Fluent setter `limit` (delegated, line 82). -/
def CrawlerState.limit (cs : CrawlerState) (v : JNum) : CrawlerState :=
  { cs with limitv := v }

/-- Fluent setter `driver` (delegated, line 80). -/
def CrawlerState.driver (cs : CrawlerState) (f : String → Except String JsVal) :
    CrawlerState :=
  { cs with driverv := f }

/-- Fluent setter `request` (delegated, line 79). -/
def CrawlerState.request (cs : CrawlerState) (t : Nat) : CrawlerState :=
  { cs with requestHookTag := t }

/-- Fluent setter `response` (delegated, line 78). -/
def CrawlerState.response (cs : CrawlerState) (t : Nat) : CrawlerState :=
  { cs with responseHookTag := t }

/-- Fluent setter `throws` (delegated, line 81). -/
def CrawlerState.throws (cs : CrawlerState) (b : Bool) : CrawlerState :=
  { cs with throwsv := b }

/-- Fluent setter `concurrency` (delegated, line 77). -/
def CrawlerState.concurrency (cs : CrawlerState) (v : Option Int) : CrawlerState :=
  { cs with concurrencyv := v }

/-- Fluent setter `timeout` (lines 128-133, numeric argument). -/
def CrawlerState.timeout (cs : CrawlerState) (v : Option Int) : CrawlerState :=
  { cs with timeoutv := v }

/-- Argument to the `paginate` setter: a function, or any other value
(used as a selector). -/
inductive PaginateArg where
  | fnArg (f : JsVal → JsVal)
  | valArg (sel : JsVal)

/-- The `paginate` setter (lines 144-163): a function argument is
stored as-is; a non-function argument makes the stored value the local
function `compile` (closing over the argument as selector) — in both
cases a function is stored. -/
def CrawlerState.paginate (cs : CrawlerState) (a : PaginateArg) : CrawlerState :=
  match a with
  | .fnArg f => { cs with paginatev := .userFn f }
  | .valArg sel => { cs with paginatev := .compiledSel sel }

/-- Line 176: `var limit = this.paginate() ? this.limit() : 1;` —
the limit used by the run is `state.limit` when the stored paginate
value is truthy, else `1`. -/
def limitUsed (cs : CrawlerState) : JNum :=
  if cs.paginatev.truthyVal then cs.limitv else .fin 1

/-- Everything `crawl` reads from `this` when the run starts (lines
176-195): the computed limit, concurrency, timeout, the paginate
function, throttle, throws, delay and the seed URL.  The driver and
the request/response hooks are NOT read here — `get` reads them from
`this.state` at each fetch. -/
structure CrawlSnapshot where
  limitAtStart : JNum
  concurrency : Option Int
  timeout : Option Int
  throwsFlag : Bool
  pag : PaginateSetting
  throttle : Option (Int × Int)
  delayr : Int × Int
  seedUrl : String

/-- The snapshot `crawl` captures at run start. -/
def crawlSnapshot (cs : CrawlerState) : CrawlSnapshot :=
  { limitAtStart := limitUsed cs, concurrency := cs.concurrencyv,
    timeout := cs.timeoutv, throwsFlag := cs.throwsv, pag := cs.paginatev,
    throttle := cs.throttlev, delayr := cs.delayv, seedUrl := cs.url }

/-- Observable effect of one call of `Crawler.prototype.get` (lines
294-332): which request hook ran, which response hook ran (if any),
what the job callback received, and the final context body. -/
structure GetRun where
  reqHookUsed : Nat
  respHookUsed : Option Nat
  result : Except String JsVal
  finalBody : JsVal

/-- One call of `get(url, fn)`: `this.response()`, `this.request()`
and `this.driver()` are read from the mutable state AT CALL TIME
(lines 295-297); a fresh context (identity tag 0, empty body) is
built, the request hook runs on the outbound descriptor, the driver
is invoked (the hook's mutation of the descriptor is abstracted to
its tag, so the body stays empty and the replay short-circuit `if
(ctx.body)` is not taken), and `done` finishes the cycle. -/
def getRun (cs : CrawlerState) (url : String) : GetRun :=
  let d := doneFn 0 .undefv (cs.driverv url)
  { reqHookUsed := cs.requestHookTag,
    respHookUsed := if d.respHookRan then some cs.responseHookTag else none,
    result := d.callback,
    finalBody := d.body }

/-! ## JSON selection (`json_select`, lines 342-346, and `compile`,
lines 151-160) -/

/-- Content classification of a response (`response.is('html')` etc.),
a parameter of the compiled-selector path. -/
inductive ContentType where
  | html
  | xml
  | json
  | other

/-- `json_select(selector, json)` (lines 342-346).  The array branch
maps the external `selectn` engine (a parameter here) over the
elements.  The non-array branch evaluates `selectn(selector, obj)`
where the identifier `obj` is not bound anywhere in scope — the `obj`
parameter belongs to the `map` callback of the array branch — so
JavaScript throws a `ReferenceError`; the faulting evaluation is
modelled as `Except.error`. -/
def json_select (selectnF : JsVal → JsVal → JsVal) (selector : JsVal)
    (json : JsVal) : Except String JsVal :=
  match json with
  | .arr xs => .ok (.arr (xs.map (fun o => selectnF selector o)))
  | _ => .error "ReferenceError: obj is not defined"

/-- The local function `compile` inside the `paginate` setter (lines
151-160): html/xml responses go to the external `select` engine (a
parameter), json responses go to `json_select`, anything else yields
`[]`. -/
def compile (selectnF : JsVal → JsVal → JsVal) (selectF : JsVal → JsVal → JsVal)
    (fn : JsVal) (ct : ContentType) (dollar : JsVal) : Except String JsVal :=
  match ct with
  | .html => .ok (selectF dollar fn)
  | .xml => .ok (selectF dollar fn)
  | .json => json_select selectnF fn dollar
  | .other => .ok (.arr [])

/-- `Array.isArray` on a modelled JavaScript value. -/
def JsVal.isArr : JsVal → Bool
  | .arr _ => true
  | _ => false

/-! ## Concrete run scenarios and states used by the claims -/

/-- Scenario of C8: the seed's response discovers
`["http://b", "not-a-url", "http://c"]`, later responses discover
nothing. -/
def script8 : Nat → Outcome := fun n =>
  match n with
  | 0 => .ok (.arr [.strv "http://b", .strv "not-a-url", .strv "http://c"])
  | _ => .ok .undefv

/-- Scenario of C3: every response discovers one further candidate. -/
def script3 : Nat → Outcome := fun _ => .ok (.arr [.strv "http://x"])

/-- Scenario of C4: the seed discovers two candidates, the first of
them fails, the second succeeds and discovers one more candidate. -/
def script4 : Nat → Outcome := fun n =>
  match n with
  | 0 => .ok (.arr [.strv "http://b", .strv "http://c"])
  | 1 => .fail
  | 2 => .ok (.arr [.strv "http://d"])
  | _ => .ok .undefv

/-- The C4 run, stopped right after the failing job's callback (four
events: seed finishes, two timers fire, first candidate fails). -/
def c4AfterError : St := Nat.iterate (execStep script4) 4 (initState .inf)

/-- A limit-2 run after the seed finished and discovered one
candidate. -/
def demoRun2a : St := stepFinish (.ok (.arr [.strv "http://x"])) (initState (.fin 2))

/-- ... after the candidate's scheduling timer fired (submission
accepted). -/
def demoRun2b : St := stepTimerFire demoRun2a

/-- ... after the candidate's job finished, having discovered one more
candidate that the exhausted limit drops: the run is complete. -/
def demoRun2c : St := stepFinish (.ok (.arr [.strv "http://x"])) demoRun2b

/-- A state in which the queue's cumulative cap is already reached
while a scheduling timer is still pending.  No such state is reachable
in a well-formed run — see the theorems on C1/C10 — but it exercises
the rejection branch of the timer callback. -/
def rejectState : St :=
  { limit := .fin 0, qcap := .fin 1, scheduled := 2, qAccepted := 1,
    jobs := 0, timers := 1, submits := 2, finished := 0, errors := 0,
    responses := 0, doneCount := 0 }

/-- A crawler whose driver was set before the run started. -/
def crawlerA : CrawlerState :=
  (mkCrawler "http://a").driver (fun _ => .ok (.strv "body-one"))

/-- The same crawler after a mid-run `driver` setter call. -/
def crawlerB : CrawlerState :=
  crawlerA.driver (fun _ => .ok (.strv "body-two"))

theorem scheduleOne_delta (s : St) :
    (scheduleOne s).jobs = s.jobs ∧
    (scheduleOne s).qAccepted = s.qAccepted ∧
    (scheduleOne s).qcap = s.qcap ∧
    (scheduleOne s).submits = s.submits ∧
    (scheduleOne s).errors = s.errors ∧
    (scheduleOne s).finished = s.finished ∧
    (scheduleOne s).responses = s.responses ∧
    (scheduleOne s).doneCount = s.doneCount ∧
    (scheduleOne s).scheduled - ((scheduleOne s).timers : Int)
      = s.scheduled - (s.timers : Int) := by
  simp only [scheduleOne]
  split <;> simp

theorem schedList_cons (c : JsVal) (cs : List JsVal) (s : St) :
    schedList (c :: cs) s = schedList cs (scheduleOne s) := rfl

theorem schedList_delta (cands : List JsVal) (s : St) :
    (schedList cands s).jobs = s.jobs ∧
    (schedList cands s).qAccepted = s.qAccepted ∧
    (schedList cands s).qcap = s.qcap ∧
    (schedList cands s).submits = s.submits ∧
    (schedList cands s).errors = s.errors ∧
    (schedList cands s).finished = s.finished ∧
    (schedList cands s).responses = s.responses ∧
    (schedList cands s).doneCount = s.doneCount ∧
    (schedList cands s).scheduled - ((schedList cands s).timers : Int)
      = s.scheduled - (s.timers : Int) := by
  induction cands generalizing s with
  | nil => exact ⟨rfl, rfl, rfl, rfl, rfl, rfl, rfl, rfl, rfl⟩
  | cons c cs ih =>
    rw [schedList_cons]
    obtain ⟨a1, a2, a3, a4, a5, a6, a7, a8, a9⟩ := scheduleOne_delta s
    obtain ⟨b1, b2, b3, b4, b5, b6, b7, b8, b9⟩ := ih (scheduleOne s)
    exact ⟨b1.trans a1, b2.trans a2, b3.trans a3, b4.trans a4, b5.trans a5,
      b6.trans a6, b7.trans a7, b8.trans a8, b9.trans a9⟩

theorem scheduleOne_cap {n : Int} {s : St} (h : capFin n s) :
    capFin n (scheduleOne s) := by
  obtain ⟨m, hm, hle1, hle2⟩ := h
  by_cases hz : m - 1 ≤ 0
  · have hrw : scheduleOne s = { s with limit := .fin (m - 1) } := by
      simp [scheduleOne, hm, JNum.dec, JNum.leZero, hz]
    rw [hrw]
    refine ⟨m - 1, rfl, ?_, ?_⟩
    · show (s.qAccepted : Int) + (s.timers : Int) ≤ n
      omega
    · intro h1
      show (s.qAccepted : Int) + (s.timers : Int) + (m - 1 - 1) ≤ n
      omega
  · have hrw : scheduleOne s =
        { s with
          limit := .fin (m - 1)
          scheduled := s.scheduled + 1
          timers := s.timers + 1 } := by
      simp [scheduleOne, hm, JNum.dec, JNum.leZero, hz]
    rw [hrw]
    refine ⟨m - 1, rfl, ?_, ?_⟩
    · show (s.qAccepted : Int) + ((s.timers + 1 : Nat) : Int) ≤ n
      have := hle2 (by omega)
      omega
    · intro h1
      show (s.qAccepted : Int) + ((s.timers + 1 : Nat) : Int) + (m - 1 - 1) ≤ n
      have := hle2 (by omega)
      omega

theorem schedList_cap {n : Int} (cands : List JsVal) {s : St} (h : capFin n s) :
    capFin n (schedList cands s) := by
  induction cands generalizing s with
  | nil => exact h
  | cons c cs ih => rw [schedList_cons]; exact ih (scheduleOne_cap h)

theorem finishDec_delta (s : St) :
    (finishDec s).jobs = s.jobs ∧
    (finishDec s).qAccepted = s.qAccepted ∧
    (finishDec s).qcap = s.qcap ∧
    (finishDec s).submits = s.submits ∧
    (finishDec s).errors = s.errors ∧
    (finishDec s).finished = s.finished ∧
    (finishDec s).responses = s.responses ∧
    (finishDec s).timers = s.timers ∧
    (finishDec s).limit = s.limit ∧
    (finishDec s).scheduled = s.scheduled - 1 ∧
    (finishDec s).doneCount
      = (if s.scheduled - 1 ≤ 0 then s.doneCount + 1 else s.doneCount) := by
  simp only [finishDec]
  split <;> simp_all

/-- `capMatch` only depends on the `limit`, `qAccepted` and `timers`
fields of the state. -/
theorem capMatch_of_fields {L : JNum} {s t : St} (h : capMatch L s)
    (hl : t.limit = s.limit) (hq : t.qAccepted = s.qAccepted)
    (ht : t.timers = s.timers) : capMatch L t := by
  cases L with
  | inf => trivial
  | fin n =>
    obtain ⟨m, hm, hle1, hle2⟩ := h
    exact ⟨m, hl.trans hm, by rw [hq, ht]; exact hle1, by rw [hq, ht]; exact hle2⟩

/-- `capMatch` is preserved by the scheduling loop. -/
theorem capMatch_schedList {L : JNum} (cands : List JsVal) {s : St}
    (h : capMatch L s) : capMatch L (schedList cands s) := by
  cases L with
  | inf => trivial
  | fin n => exact schedList_cap cands h

/-- `Inv` is established by the initial state of a well-formed run. -/
theorem init_inv {L : JNum} (h : okStart L) : Inv L (initState L) := by
  rcases h with h | ⟨n, hn, h⟩ <;> subst h
  · exact ⟨rfl, by simp [initState, JNum.natLt], by simp [initState, JNum.natLt],
      by simp [initState, JNum.natLt], trivial⟩
  · have hq : JNum.natLt 0 (JNum.fin n) = true := by
      simp only [JNum.natLt, decide_eq_true_eq]; omega
    have hrw : initState (JNum.fin n) =
        { limit := .fin n, qcap := .fin n, scheduled := 1, qAccepted := 1,
          jobs := 1, timers := 0, submits := 1, finished := 0,
          errors := 0, responses := 0, doneCount := 0 } := by
      simp [initState, hq]
    rw [hrw]
    refine ⟨rfl, ?_, ?_, rfl, n, rfl, ?_, fun _ => ?_⟩
    · show (1 : Int) = ((1 : Nat) : Int) + ((0 : Nat) : Int)
      decide
    · show (0 : Nat) = if (1 : Nat) = 0 ∧ (0 : Nat) = 0 then 1 else 0
      decide
    · show ((1 : Nat) : Int) + ((0 : Nat) : Int) ≤ n
      omega
    · show ((1 : Nat) : Int) + ((0 : Nat) : Int) + (n - 1) ≤ n
      omega

/-- The common tail of `onjobfinish`: if the state before
`--scheduled` counts the finishing job once more than pending work,
and `done` has not fired, then `finishDec` re-establishes `Inv`. -/
theorem finishDec_inv {L : JNum} {t1 : St}
    (h1 : t1.qcap = L)
    (h2 : t1.scheduled = (t1.jobs : Int) + (t1.timers : Int) + 1)
    (h3 : t1.doneCount = 0)
    (h4 : t1.submits = t1.qAccepted)
    (h5 : capMatch L t1) : Inv L (finishDec t1) := by
  obtain ⟨a1, a2, a3, a4, a5, a6, a7, a8, a9, a10, a11⟩ := finishDec_delta t1
  refine ⟨a3.trans h1, ?_, ?_, a4.trans (h4.trans a2.symm), ?_⟩
  · rw [a10, a1, a8]; omega
  · rw [a11, a1, a8, h3]
    by_cases hc : t1.jobs = 0 ∧ t1.timers = 0
    · rw [if_pos hc, if_pos (by omega : t1.scheduled - 1 ≤ 0)]
    · rw [if_neg hc, if_neg (by omega : ¬ t1.scheduled - 1 ≤ 0)]
  · exact capMatch_of_fields h5 a9 a2 a8

/-- `Inv` is preserved by every event of the run. -/
theorem inv_step {L : JNum} {s t : St} (hs : Inv L s) (h : Step s t) : Inv L t := by
  obtain ⟨hq, hsched, hdone, hsub, hcap⟩ := hs
  have hdone0 : 1 ≤ s.jobs ∨ 1 ≤ s.timers → s.doneCount = 0 := by
    intro hw; rw [hdone, if_neg]; omega
  cases h with
  | timer s ht =>
    have hqueued : JNum.natLt s.qAccepted s.qcap = true := by
      rw [hq]
      cases L with
      | inf => rfl
      | fin n =>
        obtain ⟨m, hm, hle1, hle2⟩ := hcap
        simp only [JNum.natLt, decide_eq_true_eq]
        omega
    have hd0 : s.doneCount = 0 := hdone0 (Or.inr ht)
    have hrw : stepTimerFire s =
        { s with
          timers := s.timers - 1
          submits := s.submits + 1
          qAccepted := s.qAccepted + 1
          jobs := s.jobs + 1 } := by
      simp [stepTimerFire, hqueued]
    rw [hrw]
    refine ⟨hq, ?_, ?_, ?_, ?_⟩
    · show s.scheduled = ((s.jobs + 1 : Nat) : Int) + ((s.timers - 1 : Nat) : Int)
      omega
    · show s.doneCount = if s.jobs + 1 = 0 ∧ s.timers - 1 = 0 then 1 else 0
      rw [if_neg (by omega : ¬ (s.jobs + 1 = 0 ∧ s.timers - 1 = 0))]; exact hd0
    · show s.submits + 1 = s.qAccepted + 1
      omega
    · cases L with
      | inf => trivial
      | fin n =>
        obtain ⟨m, hm, hle1, hle2⟩ := hcap
        refine ⟨m, hm, ?_, ?_⟩
        · show ((s.qAccepted + 1 : Nat) : Int) + ((s.timers - 1 : Nat) : Int) ≤ n
          omega
        · intro h1
          have := hle2 h1
          show ((s.qAccepted + 1 : Nat) : Int) + ((s.timers - 1 : Nat) : Int) + (m - 1) ≤ n
          omega
  | finish out s hj =>
    have hd0 : s.doneCount = 0 := hdone0 (Or.inl hj)
    cases out with
    | fail =>
      apply finishDec_inv
      · exact hq
      · show s.scheduled = ((s.jobs - 1 : Nat) : Int) + (s.timers : Int) + 1
        omega
      · exact hd0
      · exact hsub
      · exact capMatch_of_fields hcap rfl rfl rfl
    | ok next =>
      obtain ⟨b1, b2, b3, b4, b5, b6, b7, b8, b9⟩ :=
        schedList_delta ((toUrls next).filter canRequest)
          { s with jobs := s.jobs - 1, finished := s.finished + 1,
                   responses := s.responses + 1 }
      have c1 : (schedList ((toUrls next).filter canRequest)
          { s with jobs := s.jobs - 1, finished := s.finished + 1,
                   responses := s.responses + 1 }).jobs = s.jobs - 1 := b1
      have c9 : (schedList ((toUrls next).filter canRequest)
          { s with jobs := s.jobs - 1, finished := s.finished + 1,
                   responses := s.responses + 1 }).scheduled
          - ((schedList ((toUrls next).filter canRequest)
          { s with jobs := s.jobs - 1, finished := s.finished + 1,
                   responses := s.responses + 1 }).timers : Int)
          = s.scheduled - (s.timers : Int) := b9
      apply finishDec_inv
      · exact b3.trans hq
      · omega
      · exact b8.trans hd0
      · exact b4.trans (hsub.trans b2.symm)
      · exact capMatch_schedList _ (capMatch_of_fields hcap rfl rfl rfl)

/-- Every reachable state of a well-formed run satisfies `Inv`. -/
theorem reaches_inv {L : JNum} {s : St} (hL : okStart L) (h : Reaches L s) :
    Inv L s := by
  induction h with
  | init => exact init_inv hL
  | step _ hstep ih => exact inv_step ih hstep

/-- In a well-formed run, whenever a scheduling timer is pending, the
queue still has capacity: the submission made when that timer fires is
accepted (`queued` at line 258 is true). -/
theorem timers_imply_capacity {L : JNum} {s : St} (hL : okStart L)
    (h : Reaches L s) (ht : 1 ≤ s.timers) :
    JNum.natLt s.qAccepted s.qcap = true := by
  obtain ⟨hq, hsched, hdone, hsub, hcap⟩ := reaches_inv hL h
  rw [hq]
  cases L with
  | inf => rfl
  | fin n =>
    obtain ⟨m, hm, hle1, hle2⟩ := hcap
    simp only [JNum.natLt, decide_eq_true_eq]
    omega

/-- In a well-formed run, the number of submissions made to the queue
(the seed plus every timer that fired) never exceeds the queue's cap. -/
theorem submits_le_cap {L : JNum} {s : St} (hL : okStart L)
    (h : Reaches L s) : JNum.natLe s.submits s.qcap = true := by
  obtain ⟨hq, hsched, hdone, hsub, hcap⟩ := reaches_inv hL h
  rw [hq]
  cases L with
  | inf => rfl
  | fin n =>
    obtain ⟨m, hm, hle1, hle2⟩ := hcap
    simp only [JNum.natLe, decide_eq_true_eq]
    omega

theorem scheduleOne_meas {m : Int} {s : St} (hm : s.limit = .fin m) :
    (scheduleOne s).limit = .fin (m - 1) ∧ meas (scheduleOne s) ≤ meas s := by
  by_cases hz : m - 1 ≤ 0
  · have hrw : scheduleOne s = { s with limit := .fin (m - 1) } := by
      simp [scheduleOne, hm, JNum.dec, JNum.leZero, hz]
    rw [hrw]
    refine ⟨rfl, ?_⟩
    show 2 * s.jobs + 3 * s.timers + 5 * slackOf (.fin (m - 1)) ≤ meas s
    rw [meas, hm]
    simp only [slackOf]
    omega
  · have hrw : scheduleOne s =
        { s with
          limit := .fin (m - 1)
          scheduled := s.scheduled + 1
          timers := s.timers + 1 } := by
      simp [scheduleOne, hm, JNum.dec, JNum.leZero, hz]
    rw [hrw]
    refine ⟨rfl, ?_⟩
    show 2 * s.jobs + 3 * (s.timers + 1) + 5 * slackOf (.fin (m - 1)) ≤ meas s
    rw [meas, hm]
    simp only [slackOf]
    omega

theorem schedList_meas (cands : List JsVal) {m : Int} {s : St}
    (hm : s.limit = .fin m) :
    (∃ m2 : Int, (schedList cands s).limit = .fin m2) ∧
    meas (schedList cands s) ≤ meas s := by
  induction cands generalizing s m with
  | nil => exact ⟨⟨m, hm⟩, le_refl _⟩
  | cons c cs ih =>
    rw [schedList_cons]
    obtain ⟨h1, h2⟩ := scheduleOne_meas hm
    obtain ⟨h3, h4⟩ := ih h1
    exact ⟨h3, h4.trans h2⟩

theorem finishDec_meas (s : St) : meas (finishDec s) = meas s := by
  obtain ⟨a1, a2, a3, a4, a5, a6, a7, a8, a9, a10, a11⟩ := finishDec_delta s
  rw [meas, meas, a1, a8, a9]

/-- With a finite limit, every event of the run strictly decreases the
measure: no run with a finite limit can take infinitely many steps. -/
theorem step_meas {s t : St} (h : Step s t) {m : Int}
    (hm : s.limit = .fin m) : meas t < meas s := by
  cases h with
  | timer s ht =>
    have h1 : (stepTimerFire s).limit = s.limit ∧
        (stepTimerFire s).timers = s.timers - 1 ∧
        (stepTimerFire s).jobs ≤ s.jobs + 1 := by
      simp only [stepTimerFire]
      split
      · exact ⟨rfl, rfl, by show s.jobs + 1 ≤ s.jobs + 1; omega⟩
      · exact ⟨rfl, rfl, by show s.jobs ≤ s.jobs + 1; omega⟩
    rw [meas, meas, h1.1, h1.2.1]
    have := h1.2.2
    omega
  | finish out s hj =>
    cases out with
    | fail =>
      show meas (finishDec
        { s with jobs := s.jobs - 1, finished := s.finished + 1,
                 errors := s.errors + 1 }) < meas s
      rw [finishDec_meas]
      show 2 * (s.jobs - 1) + 3 * s.timers + 5 * slackOf s.limit < meas s
      rw [meas]
      omega
    | ok next =>
      show meas (finishDec (schedList ((toUrls next).filter canRequest)
        { s with jobs := s.jobs - 1, finished := s.finished + 1,
                 responses := s.responses + 1 })) < meas s
      rw [finishDec_meas]
      have hm1 : ({ s with jobs := s.jobs - 1, finished := s.finished + 1,
                           responses := s.responses + 1 } : St).limit = .fin m := hm
      obtain ⟨h1, h2⟩ := schedList_meas ((toUrls next).filter canRequest) hm1
      apply lt_of_le_of_lt h2
      show 2 * (s.jobs - 1) + 3 * s.timers + 5 * slackOf s.limit < meas s
      rw [meas]
      omega

/-! ## Claims -/

/-- C1 counterexample: when the queue rejects the delayed submission
(`queued` is false at line 258), the in-flight counter `scheduled` is
NOT decremented — the branch is the bare `if (!queued) return;` of
line 259 — contrary to the claim that the orchestrator immediately
decrements it to undo the speculative increment. -/
theorem c1_counterexample :
    (stepTimerFire rejectState).scheduled = rejectState.scheduled ∧
    ¬ (stepTimerFire rejectState).scheduled = rejectState.scheduled - 1 := by
  decide

/-- C1 (amended): when the queue rejects a delayed submission, the
orchestrator performs no counter bookkeeping at all — the state is
unchanged except for the consumed timer and the submission counter;
the run nevertheless still completes, because in every well-formed
run the rejection branch is unreachable: whenever a timer is pending,
the queue still has capacity and the submission is accepted. -/
theorem c1_rejected_submission_no_undo :
    (∀ s : St, JNum.natLt s.qAccepted s.qcap = false →
      stepTimerFire s
        = { s with timers := s.timers - 1, submits := s.submits + 1 }) ∧
    (∀ (L : JNum) (s : St), okStart L → Reaches L s → 1 ≤ s.timers →
      JNum.natLt s.qAccepted s.qcap = true) := by
  constructor
  · intro s hs
    simp [stepTimerFire, hs]
  · intro L s hL h ht
    exact timers_imply_capacity hL h ht

/-- Witness for the C1 theorem: the rejection branch applied at
`rejectState`, and capacity at a concrete reachable state with a
pending timer. -/
theorem c1_rejected_submission_no_undo_witness :
    stepTimerFire rejectState
      = { rejectState with timers := rejectState.timers - 1,
                           submits := rejectState.submits + 1 } ∧
    JNum.natLt demoRun2a.qAccepted demoRun2a.qcap = true := by
  refine ⟨c1_rejected_submission_no_undo.1 rejectState (by decide), ?_⟩
  exact c1_rejected_submission_no_undo.2 (JNum.fin 2) demoRun2a
    (Or.inr ⟨2, by norm_num, rfl⟩)
    (Reaches.step Reaches.init (Step.finish _ _ (by decide))) (by decide)

/-- C2: in every well-formed run, a finished job's discovery and the
scheduling of its children (each child incrementing the counter when
it enters its delay) happen before the job's own decrement, so the
in-flight counter always equals pending jobs plus pending delayed
submissions; it reaches zero exactly when no unit of work is pending,
at that point the completion callback has fired exactly once, and no
further event — in particular no further scheduling — is possible
afterwards. -/
theorem c2_inflight_counter_liveness (L : JNum) (hL : okStart L) (s : St)
    (h : Reaches L s) :
    s.scheduled = (s.jobs : Int) + (s.timers : Int) ∧
    s.doneCount = (if s.jobs = 0 ∧ s.timers = 0 then 1 else 0) ∧
    s.doneCount ≤ 1 ∧
    (s.doneCount = 1 → ∀ t : St, ¬ Step s t) := by
  obtain ⟨hq, hsched, hdone, hsub, hcap⟩ := reaches_inv hL h
  refine ⟨hsched, hdone, ?_, ?_⟩
  · rw [hdone]; split <;> omega
  · intro hd t hstep
    have hz : s.jobs = 0 ∧ s.timers = 0 := by
      by_contra hc
      rw [if_neg hc] at hdone
      omega
    obtain ⟨hz1, hz2⟩ := hz
    cases hstep with
    | timer _ ht => omega
    | finish out _ hj => omega

/-- Witness for the C2 theorem at the start of a limit-1 run. -/
theorem c2_inflight_counter_liveness_witness :
    (initState (JNum.fin 1)).scheduled
      = ((initState (JNum.fin 1)).jobs : Int)
        + ((initState (JNum.fin 1)).timers : Int) ∧
    (initState (JNum.fin 1)).doneCount ≤ 1 := by
  obtain ⟨h1, h2, h3, h4⟩ := c2_inflight_counter_liveness (JNum.fin 1)
    (Or.inr ⟨1, le_refl 1, rfl⟩) (initState (JNum.fin 1)) Reaches.init
  exact ⟨h1, h3⟩

/-- C3: with a configured finite limit `n ≥ 1` and any discovery
function, the number of fetches performed (jobs accepted by the queue,
seed included) never exceeds `n` — candidates beyond the cap are never
accepted, hence never fetched — every event strictly decreases the
termination measure, so the run cannot run forever, and once no work
is pending the completion callback has fired. -/
theorem c3_cumulative_limit (n : Int) (hn : 1 ≤ n) (s : St)
    (h : Reaches (.fin n) s) :
    ((s.qAccepted : Int) ≤ n) ∧
    (∀ t : St, Step s t → meas t < meas s) ∧
    ((s.jobs = 0 ∧ s.timers = 0) → s.doneCount = 1) := by
  obtain ⟨hq, hsched, hdone, hsub, hcap⟩ := reaches_inv (Or.inr ⟨n, hn, rfl⟩) h
  obtain ⟨m, hm, hle1, hle2⟩ := hcap
  refine ⟨by omega, ?_, ?_⟩
  · intro t hstep
    exact step_meas hstep hm
  · intro hz
    rw [hdone, if_pos hz]

/-- Witness for the C3 theorem: the scenario `limit = 2`, discovery
always returning one new candidate — the run performs exactly 2
fetches (the bound from the theorem, attained), completes, and fires
the completion callback once. -/
theorem c3_cumulative_limit_witness :
    ((demoRun2c.qAccepted : Int) ≤ 2) ∧ demoRun2c.qAccepted = 2 ∧
    demoRun2c.doneCount = 1 ∧ demoRun2c.jobs = 0 ∧ demoRun2c.timers = 0 := by
  have h0 : Reaches (.fin 2) (initState (.fin 2)) := Reaches.init
  have h1 : Reaches (.fin 2) demoRun2a :=
    Reaches.step h0 (Step.finish _ _ (by decide))
  have h2 : Reaches (.fin 2) demoRun2b :=
    Reaches.step h1 (Step.timer _ (by decide))
  have h3 : Reaches (.fin 2) demoRun2c :=
    Reaches.step h2 (Step.finish _ _ (by decide))
  exact ⟨(c3_cumulative_limit 2 (by norm_num) demoRun2c h3).1,
    by decide, by decide, by decide, by decide⟩

/-- C10: in every well-formed run, the total number of submissions
made to the job queue (the seed plus every fired scheduling timer)
never exceeds the queue's configured limit, and whenever a scheduling
timer is still pending the queue has spare capacity — so the queue
never rejects a submission and the `if (!queued) return` branch of the
timer callback is unreachable. -/
theorem c10_rejection_unreachable (L : JNum) (hL : okStart L) (s : St)
    (h : Reaches L s) :
    JNum.natLe s.submits s.qcap = true ∧
    (1 ≤ s.timers → JNum.natLt s.qAccepted s.qcap = true) :=
  ⟨submits_le_cap hL h, fun ht => timers_imply_capacity hL h ht⟩

/-- Witness for the C10 theorem at a concrete reachable state with a
pending timer. -/
theorem c10_rejection_unreachable_witness :
    JNum.natLe demoRun2a.submits demoRun2a.qcap = true ∧
    JNum.natLt demoRun2a.qAccepted demoRun2a.qcap = true := by
  have hr : Reaches (.fin 2) demoRun2a :=
    Reaches.step Reaches.init (Step.finish _ _ (by decide))
  obtain ⟨h1, h2⟩ := c10_rejection_unreachable (JNum.fin 2)
    (Or.inr ⟨2, by norm_num, rfl⟩) demoRun2a hr
  exact ⟨h1, h2 (by decide)⟩

/-- C4 counterexample: a run with the fatal-on-error flag set
(`throws = true`) in which one job fails — after the failing job's
callback (four events in) the error has been emitted and three
submissions have been made; the run then still performs a FOURTH
submission and fetch (a candidate discovered after the error), and
completes normally with the completion callback, with no escalation.
Under the claim, with the flag set no further new scheduling may occur
after the error and the error is escalated — so at most 3 fetches and
no normal completion. -/
theorem c4_counterexample :
    c4AfterError.errors = 1 ∧
    c4AfterError.submits = 3 ∧
    (runCrawl true script4 .inf 10).submits = 4 ∧
    (runCrawl true script4 .inf 10).qAccepted = 4 ∧
    (runCrawl true script4 .inf 10).errors = 1 ∧
    (runCrawl true script4 .inf 10).doneCount = 1 := by
  decide

/-- C4 (amended): per-job errors never abort the run, and the
fatal-on-error flag has no effect at all — `crawl` captures `throws`
(line 180) but no code path reads it, so a run behaves identically
with and without it; a failing job only emits the error signal and
performs the normal counter bookkeeping, leaving pending timers, the
limit and the queue cap untouched, so in-flight and delayed jobs still
drain to completion. -/
theorem c4_throws_flag_unused :
    (∀ (b1 b2 : Bool) (script : Nat → Outcome) (L : JNum) (fuel : Nat),
      runCrawl b1 script L fuel = runCrawl b2 script L fuel) ∧
    (∀ s : St, (stepFinish .fail s).errors = s.errors + 1) ∧
    (∀ s : St, (stepFinish .fail s).timers = s.timers) ∧
    (∀ s : St, (stepFinish .fail s).limit = s.limit) ∧
    (∀ s : St, (stepFinish .fail s).qcap = s.qcap) ∧
    (∀ s : St, (stepFinish .fail s).jobs = s.jobs - 1) := by
  refine ⟨fun b1 b2 script L fuel => rfl, ?_, ?_, ?_, ?_, ?_⟩ <;>
    intro s <;> simp only [stepFinish, finishDec] <;> split <;> rfl

/-- C7 counterexample: with no discovery function configured the
stored `paginate` is the constructor's default `function(){}`, which
is truthy, so line 176 takes the `this.limit()` branch: the limit used
by the run is the default `Infinity`, not 1. -/
theorem c7_counterexample :
    limitUsed (mkCrawler "http://a") = JNum.inf ∧
    ¬ limitUsed (mkCrawler "http://a") = JNum.fin 1 := by
  constructor
  · rfl
  · intro h
    exact JNum.noConfusion ((rfl : limitUsed (mkCrawler "http://a") = JNum.inf).symm.trans h)

/-- C7 (amended): the limit is never forced to 1 — the stored
`paginate` value is always a function, hence truthy, so `limitUsed`
is always `state.limit` and the `: 1` branch of line 176 is dead code;
nevertheless a run with no discovery function configured performs
exactly one fetch, because the default `function(){}` discovery
returns `undefined`, which yields no candidates, so only the seed is
ever fetched and the run completes. -/
theorem c7_no_discovery_single_fetch :
    (∀ cs : CrawlerState, limitUsed cs = cs.limitv) ∧
    toUrls defaultPaginateResult = [] ∧
    (runCrawl false (fun _ => .ok defaultPaginateResult) .inf 5).qAccepted = 1 ∧
    (runCrawl false (fun _ => .ok defaultPaginateResult) .inf 5).doneCount = 1 := by
  refine ⟨?_, rfl, by decide, by decide⟩
  intro cs
  have h : cs.paginatev.truthyVal = true := by
    cases cs.paginatev <;> rfl
  rw [limitUsed, h, if_pos rfl]

/-- C8: a discovered candidate that is not a string, or is a string
with no recognizable scheme (such as `"not-a-url"`), is dropped by the
`canRequest` filter; the filter path of a successful job emits no
error signal; syntactically valid absolute candidates such as
`"http://b"` pass the filter; and in the spec's scenario — seed whose
response discovers `["http://b", "not-a-url", "http://c"]`, then
nothing, unbounded limit — the run performs exactly 3 fetches, emits
no error, and fires the completion callback exactly once. -/
theorem c8_invalid_candidates_dropped_silently :
    (∀ n : Int, canRequest (.numv n) = false) ∧
    (∀ b : Bool, canRequest (.boolv b) = false) ∧
    (∀ xs : List JsVal, canRequest (.arr xs) = false) ∧
    (∀ t : Nat, canRequest (.obj t) = false) ∧
    (∀ t : Nat, canRequest (.fnv t) = false) ∧
    canRequest .undefv = false ∧
    canRequest .nullv = false ∧
    canRequest (.strv "not-a-url") = false ∧
    canRequest (.strv "http://b") = true ∧
    canRequest (.strv "http://c") = true ∧
    (∀ (next : JsVal) (s : St), (stepFinish (.ok next) s).errors = s.errors) ∧
    (runCrawl false script8 .inf 8).qAccepted = 3 ∧
    (runCrawl false script8 .inf 8).errors = 0 ∧
    (runCrawl false script8 .inf 8).responses = 3 ∧
    (runCrawl false script8 .inf 8).doneCount = 1 := by
  refine ⟨fun n => rfl, fun b => rfl, fun xs => rfl, fun t => rfl, fun t => rfl,
    rfl, rfl, by decide, by decide, by decide, ?_, by decide, by decide,
    by decide, by decide⟩
  intro next s
  obtain ⟨b1, b2, b3, b4, b5, b6, b7, b8, b9⟩ :=
    schedList_delta ((toUrls next).filter canRequest)
      { s with jobs := s.jobs - 1, finished := s.finished + 1,
               responses := s.responses + 1 }
  obtain ⟨a1, a2, a3, a4, a5, a6, a7, a8, a9, a10, a11⟩ :=
    finishDec_delta (schedList ((toUrls next).filter canRequest)
      { s with jobs := s.jobs - 1, finished := s.finished + 1,
               responses := s.responses + 1 })
  exact a5.trans b5

theorem beq_def (a b : JsVal) : (a == b) = JsVal.beq a b := rfl

/-- Comparing any modelled JavaScript value against an object for
equality succeeds exactly when it is that object (reference
equality). -/
theorem beq_obj_iff (v : JsVal) (t : Nat) :
    (v == JsVal.obj t) = true ↔ v = JsVal.obj t := by
  cases v <;> simp [beq_def, JsVal.beq]

/-- C5 counterexample: two crawler states that differ only in a
`driver` setter call made after the run started have the same
`crawlSnapshot` — everything `crawl` captured at start is unchanged —
yet the next fetch of the already-running crawl behaves differently,
because `get` reads `this.driver()` at fetch time; so mutating a
fluent setter after the run has started DOES change the behaviour of
the already-running crawl. -/
theorem c5_counterexample :
    crawlSnapshot crawlerB = crawlSnapshot crawlerA ∧
    ¬ getRun crawlerB "http://a" = getRun crawlerA "http://a" := by
  refine ⟨rfl, ?_⟩
  intro h
  have h2 : JsVal.strv "body-two" = JsVal.strv "body-one" :=
    congrArg GetRun.finalBody h
  have h3 : "body-two" = "body-one" := by injection h2
  exact absurd h3 (by decide)

/-- C5 (amended): the scheduling configuration — limit, concurrency,
timeout, throttle, delay, paginate, throws, seed URL — is read once
into `crawl`'s closure at run start, and none of the driver or hook
setters can change that snapshot; but the driver and the
request/response hooks are read from the mutable state at every fetch,
so mutating those setters after the run has started does change the
behaviour of the already-running crawl (while `limit`/`throws` setter
calls leave a fetch unchanged). -/
theorem c5_snapshot_scheduling_live_hooks :
    (∀ (cs : CrawlerState) (f : String → Except String JsVal),
      crawlSnapshot (cs.driver f) = crawlSnapshot cs) ∧
    (∀ (cs : CrawlerState) (t : Nat),
      crawlSnapshot (cs.request t) = crawlSnapshot cs) ∧
    (∀ (cs : CrawlerState) (t : Nat),
      crawlSnapshot (cs.response t) = crawlSnapshot cs) ∧
    (∀ (cs : CrawlerState) (v : JNum) (u : String),
      getRun (cs.limit v) u = getRun cs u) ∧
    (∀ (cs : CrawlerState) (b : Bool) (u : String),
      getRun (cs.throws b) u = getRun cs u) ∧
    (∀ (cs : CrawlerState) (t : Nat) (u : String),
      (getRun (cs.response t) u).respHookUsed
        = if (doneFn 0 .undefv (cs.driverv u)).respHookRan then some t else none) ∧
    (crawlSnapshot crawlerB = crawlSnapshot crawlerA ∧
      ¬ getRun crawlerB "http://a" = getRun crawlerA "http://a") := by
  refine ⟨fun cs f => rfl, fun cs t => rfl, fun cs t => rfl,
    fun cs v u => rfl, fun cs b u => rfl, fun cs t u => rfl, rfl, ?_⟩
  intro h
  have h2 : JsVal.strv "body-two" = JsVal.strv "body-one" :=
    congrArg GetRun.finalBody h
  have h3 : "body-two" = "body-one" := by injection h2
  exact absurd h3 (by decide)

/-- C6 counterexample: the driver calls back with the context object
itself as its result (`done(null, ctx)`), whose identity differs from
the context's body `"b"` — under the claim the body must then be
overwritten with the result, but the code compares the result against
the CONTEXT (`res != ctx`), not against the body, and leaves the body
unchanged. -/
theorem c6_counterexample :
    (doneFn 0 (.strv "b") (.ok (.obj 0))).body = .strv "b" ∧
    doneBodyClaim (.strv "b") (.obj 0) = .obj 0 ∧
    ¬ (doneFn 0 (.strv "b") (.ok (.obj 0))).body
        = doneBodyClaim (.strv "b") (.obj 0) := by
  refine ⟨rfl, rfl, ?_⟩
  intro h
  have h2 : JsVal.strv "b" = JsVal.obj 0 := h
  exact JsVal.noConfusion h2

/-- C6 (amended): in `get`, on driver success the response hook runs
synchronously, the callback receives `(null, context)`, and the
context body is overwritten with the driver's result exactly when the
result is truthy and differs by identity from the context object
itself (not from the context's body). -/
theorem c6_driver_success_behavior (ctxTag : Nat) (ctxBody res : JsVal) :
    doneSuccessSpec ctxTag ctxBody res (doneFn ctxTag ctxBody (.ok res)) := by
  refine ⟨rfl, rfl, ?_, ?_⟩
  · rintro ⟨ht, hne⟩
    have hb : (res == JsVal.obj ctxTag) = false := by
      cases hcase : res == JsVal.obj ctxTag
      · rfl
      · exact absurd ((beq_obj_iff res ctxTag).mp hcase) hne
    show (if truthy res && !(res == JsVal.obj ctxTag) then res else ctxBody) = res
    rw [ht, hb]
    simp
  · intro h
    rcases h with hf | he
    · show (if truthy res && !(res == JsVal.obj ctxTag) then res else ctxBody)
        = ctxBody
      rw [hf]
      simp
    · subst he
      show (if truthy (JsVal.obj ctxTag) && !(JsVal.obj ctxTag == JsVal.obj ctxTag)
          then JsVal.obj ctxTag else ctxBody) = ctxBody
      have hself : (JsVal.obj ctxTag == JsVal.obj ctxTag) = true :=
        (beq_obj_iff _ _).mpr rfl
      rw [hself]
      simp

/-- Witness for the C6 theorem at a concrete success: a truthy string
result that is not the context object overwrites the body. -/
theorem c6_driver_success_behavior_witness :
    doneSuccessSpec 0 (.strv "b") (.strv "x")
      (doneFn 0 (.strv "b") (.ok (.strv "x"))) :=
  c6_driver_success_behavior 0 (.strv "b") (.strv "x")

/-- C9: when a compiled string selector is applied to a JSON response
whose decoded body is not an array, the non-array branch of
`json_select` evaluates the unbound identifier `obj` and faults
(ReferenceError) instead of returning a value — for every non-array
JSON input and every selector. -/
theorem c9_json_select_nonarray_faults
    (selectnF selectF : JsVal → JsVal → JsVal) (fn json : JsVal)
    (h : json.isArr = false) :
    compile selectnF selectF fn .json json
      = .error "ReferenceError: obj is not defined" := by
  cases json <;> first
    | rfl
    | exact absurd h (by simp [JsVal.isArr])

/-- Witness for the C9 theorem: selecting over a single JSON object
(a non-array) faults. -/
theorem c9_json_select_nonarray_faults_witness :
    (JsVal.obj 7).isArr = false ∧
    compile (fun _ v => v) (fun _ v => v) (.strv "a.b") .json (.obj 7)
      = .error "ReferenceError: obj is not defined" :=
  ⟨rfl, c9_json_select_nonarray_faults _ _ _ _ rfl⟩

end XrayCrawler
